import Mathlib

/-!
Verification of the microblog application's data model and operations.

The embedding mirrors `app/models.py`, `app/forms.py` and `app/routes.py`:
the relational store is a record of three tables (users, posts, and the
`followers` association table of (follower_id, followed_id) pairs), and each
Python method becomes a Lean function over that state.
-/

namespace Microblog

/-- A row of the `user` table (`app/models.py`, class `User`). -/
structure User where
  id : Nat
  username : String
  email : String
  password_hash : Option String := none
  about_me : Option String := none
deriving DecidableEq, Repr

/-- A row of the `post` table (`app/models.py`, class `Post`).
Timestamps are modelled as naturals (UTC instants are totally ordered). -/
structure Post where
  id : Nat
  body : String
  timestamp : Nat
  user_id : Nat
deriving DecidableEq, Repr

/-- The relational store: the `user` table, the `post` table, and the
`followers` association table of (follower_id, followed_id) pairs
(`app/models.py`, table `followers`). -/
structure DBState where
  users : List User
  posts : List Post
  follows : List (Nat × Nat)
deriving DecidableEq, Repr

/-- The empty database, as produced by `db.create_all()` on a fresh store. -/
def emptyDB : DBState := ⟨[], [], []⟩

/-- `User.is_following` (`app/models.py`): the query
`self.following.select().where(User.id == user.id)` returns a row iff the
association table holds the (self.id, user.id) pair. -/
def is_following (st : DBState) (a b : Nat) : Bool :=
  st.follows.any (fun e => e.1 == a && e.2 == b)

/-- `User.follow` (`app/models.py`): insert the edge unless it already exists. -/
def follow (st : DBState) (a b : Nat) : DBState :=
  if is_following st a b then st
  else { st with follows := (a, b) :: st.follows }

/-- `User.unfollow` (`app/models.py`): delete the edge if it exists.  The
SQL DELETE removes every row matching (follower_id = a AND followed_id = b). -/
def unfollow (st : DBState) (a b : Nat) : DBState :=
  if is_following st a b then
    { st with follows := st.follows.filter (fun e => !(e.1 == a && e.2 == b)) }
  else st

/-- `User.followers_count` (`app/models.py`): COUNT of the rows whose
followed_id is `u`. -/
def followers_count (st : DBState) (u : Nat) : Nat :=
  (st.follows.filter (fun e => e.2 == u)).length

/-- `User.following_count` (`app/models.py`): COUNT of the rows whose
follower_id is `u`. -/
def following_count (st : DBState) (u : Nat) : Nat :=
  (st.follows.filter (fun e => e.1 == u)).length

/-- A follow-graph mutation issued by a request, acting through
`User.follow` / `User.unfollow`. -/
inductive GraphOp where
  | follow (a b : Nat)
  | unfollow (a b : Nat)

/-- Apply one graph operation to the store. -/
def applyOp (st : DBState) : GraphOp → DBState
  | GraphOp.follow a b => Microblog.follow st a b
  | GraphOp.unfollow a b => Microblog.unfollow st a b

/-- Apply a sequence of graph operations, oldest first. -/
def applyOps (st : DBState) (ops : List GraphOp) : DBState :=
  ops.foldl applyOp st

/-- The ORDER BY relation of the feed query: descending creation timestamp. -/
def tsDesc (a b : Post) : Prop := b.timestamp ≤ a.timestamp

instance : DecidableRel tsDesc := fun a b => Nat.decLe b.timestamp a.timestamp

instance : IsTotal Post tsDesc := ⟨fun a b => Nat.le_total b.timestamp a.timestamp⟩

instance : IsTrans Post tsDesc := ⟨fun _ _ _ hab hbc => Nat.le_trans hbc hab⟩

/-- The WHERE clause of `User.following_posts` applied to one post row: the
inner join to the author requires an author row to exist, and the row is kept
when the outer-joined follower is `uid` (`Follower.id == self.id`) or the
author is `uid` (`Author.id == self.id`). -/
def feedCond (st : DBState) (uid : Nat) (p : Post) : Bool :=
  st.users.any (fun u => u.id == p.user_id) &&
    (st.follows.any (fun e => e.1 == uid && e.2 == p.user_id) || p.user_id == uid)

/-- `User.following_posts` (`app/models.py`): select posts, join the author,
left-outer-join the author's followers, filter on the WHERE clause, GROUP BY
post (collapsing the one-row-per-follower duplicates), ORDER BY timestamp
descending. -/
def following_posts (st : DBState) (uid : Nat) : List Post :=
  List.insertionSort tsDesc (st.posts.filter (feedCond st uid))

/-- Reference feed, following the spec sentence word for word: sort by
timestamp descending the deduplicated union of `uid`'s own posts and the
posts of every author `uid` follows. -/
def referenceFeed (st : DBState) (uid : Nat) : List Post :=
  List.insertionSort tsDesc
    ((st.posts.filter (fun p => p.user_id == uid) ++
      st.posts.filter
        (fun p => st.follows.any (fun e => e.1 == uid && e.2 == p.user_id))).dedup)

/-- Modelled from the spec: werkzeug's `generate_password_hash` (library
code, not in src/).  The spec relies only on the hash determining and being
determined by the password, so it is modelled as an injective encoding. -/
def generate_password_hash (p : String) : String :=
  "scrypt:32768:8:1$" ++ p

/-- Modelled from the spec: werkzeug's `check_password_hash` (library code,
not in src/): a stored hash matches exactly the password it was generated
from. -/
def check_password_hash (stored pw : String) : Bool :=
  stored == generate_password_hash pw

/-- `User.set_password` (`app/models.py`): store the password hash. -/
def set_password (u : User) (p : String) : User :=
  { u with password_hash := some (generate_password_hash p) }

/-- `User.check_password` (`app/models.py`): compare against the stored
hash.  (The source presumes the hash has been set; an unset hash matches
nothing.) -/
def check_password (u : User) (p : String) : Bool :=
  match u.password_hash with
  | some stored => check_password_hash stored p
  | none => false

/-- Modelled from the spec: `hashlib.md5(...).hexdigest()` (library code, not
in src/), a deterministic digest of the input bytes. -/
def md5_hexdigest (s : String) : String :=
  toString (s.data.foldl (fun acc c => (acc * 131 + c.toNat) % 4294967296) 7)

/-- Python's `str.lower` on the modelled character range, as used by
`self.email.lower()` in `User.avatar`: lower-case each character. -/
def pyLower (s : String) : String := (s.data.map Char.toLower).asString

/-- `User.avatar` (`app/models.py`): the Gravatar URL built from the MD5
digest of the lower-cased email and the requested size. -/
def avatar (u : User) (size : Nat) : String :=
  "https://www.gravatar.com/avatar/" ++ md5_hexdigest (pyLower u.email) ++
    "?d=identicon&s=" ++ toString size

/-- The user lookup of the login route (`app/routes.py`):
`db.session.scalar(sa.select(User).where(User.username == ...))` returns the
first matching row or None. -/
def find_user (st : DBState) (uname : String) : Option User :=
  st.users.find? (fun u => u.username == uname)

/-- The externally observable outcome of a request: the flashed message, if
any, and the redirect target. -/
structure Outcome where
  flash : Option String
  redirectTo : String
deriving DecidableEq, Repr

/-- `url_for('index')`. -/
def url_for_index : String := "/index"

/-- `url_for('login')`. -/
def url_for_login : String := "/login"

/-- Characters allowed in a URL scheme (`urllib.parse.scheme_chars`). -/
def isSchemeChar (c : Char) : Bool :=
  c.isAlpha || c.isDigit || c == '+' || c == '-' || c == '.'

/-- `urllib.parse.urlsplit`: strip a leading `scheme:` when the text before
the first colon is a nonempty run of scheme characters starting with a
letter. -/
def dropScheme (cs : List Char) : List Char :=
  let before := cs.takeWhile (fun c => c != ':')
  let rest := cs.dropWhile (fun c => c != ':')
  if rest.isEmpty then cs
  else if before.isEmpty then cs
  else if (before.headD ' ').isAlpha && before.all isSchemeChar then rest.drop 1
  else cs

/-- `urlsplit(...).netloc`: nonempty exactly when, after the scheme, the text
starts with `//`; the netloc then extends to the next `/`, `?` or `#`. -/
def netloc (s : String) : String :=
  match dropScheme s.data with
  | '/' :: '/' :: r => (r.takeWhile (fun c => c != '/' && c != '?' && c != '#')).asString
  | _ => ""

/-- The post-login redirect target (`app/routes.py`): when `next` is absent,
empty, or has a nonempty netloc, go to the index page; otherwise go to the
destination given by `next`. -/
def next_page_target (nxt : Option String) : String :=
  match nxt with
  | none => url_for_index
  | some s => if s == "" || netloc s != "" then url_for_index else s

/-- The `/login` POST handler (`app/routes.py`): look the user up by
username; when the user is missing or the password does not match, flash the
generic message and redirect back to the login page; otherwise redirect
through the open-redirect guard. -/
def login (st : DBState) (uname pwd : String) (nxt : Option String) : Outcome :=
  match find_user st uname with
  | none => ⟨some "Invalid username or password", url_for_login⟩
  | some u =>
    if check_password u pwd then ⟨none, next_page_target nxt⟩
    else ⟨some "Invalid username or password", url_for_login⟩

/-- The submitted registration form data (`app/forms.py`,
`RegistrationForm`). -/
structure RegForm where
  username : String
  email : String
  password : String
  password2 : String
deriving DecidableEq, Repr

/-- `RegistrationForm.validate_username` (`app/forms.py`): a
`ValidationError` with the user-visible message when a user with the
submitted username already exists. -/
def validate_username (st : DBState) (uname : String) : Option String :=
  if st.users.any (fun u => u.username == uname) then
    some "Please use a different username."
  else none

/-- `RegistrationForm.validate_email` (`app/forms.py`). -/
def validate_email (st : DBState) (em : String) : Option String :=
  if st.users.any (fun u => u.email == em) then
    some "Please use a different email address."
  else none

/-- Modelled from the spec: WTForms' `Email()` format validator (library
code, not in src/).  The claims concern only the duplicate checks, which are
conjoined with it. -/
def email_format_ok (e : String) : Bool := e.data.contains '@'

/-- `form.validate_on_submit()` for the registration form: the stock
validators (`DataRequired` on every field, `Email()`, `EqualTo('password')`)
and the two custom duplicate validators must all pass. -/
def registration_valid (st : DBState) (f : RegForm) : Bool :=
  !(f.username == "") && !(f.email == "") && !(f.password == "") &&
    !(f.password2 == "") && email_format_ok f.email &&
    (f.password2 == f.password) &&
    (validate_username st f.username).isNone && (validate_email st f.email).isNone

/-- The `/register` POST handler (`app/routes.py`): on valid form data add
the new user (with hashed password) and commit; otherwise re-render the form
and leave the store unchanged.  Returns the store and whether a row was
persisted. -/
def register (st : DBState) (f : RegForm) (newId : Nat) : DBState × Bool :=
  if registration_valid st f then
    ({ st with users := st.users ++
        [{ id := newId, username := f.username, email := f.email,
           password_hash := some (generate_password_hash f.password) }] }, true)
  else (st, false)

/-- The four-user scenario of `tests.py` (`test_follow_posts`): john susan
mary david, one post each (timestamps 1, 4, 3, 2), edges john→susan,
john→david, susan→mary, mary→david. -/
def testDB : DBState :=
  ⟨[⟨1, "john", "john@example.com", none, none⟩,
    ⟨2, "susan", "susan@example.com", none, none⟩,
    ⟨3, "mary", "mary@example.com", none, none⟩,
    ⟨4, "david", "david@example.com", none, none⟩],
   [⟨1, "post from john", 1, 1⟩,
    ⟨2, "post from susan", 4, 2⟩,
    ⟨3, "post from mary", 3, 3⟩,
    ⟨4, "post from david", 2, 4⟩],
   [(1, 2), (1, 4), (2, 3), (3, 4)]⟩

theorem is_following_iff_mem {st : DBState} {a b : Nat} :
    is_following st a b = true ↔ (a, b) ∈ st.follows := by
  simp only [is_following, List.any_eq_true, Bool.and_eq_true, beq_iff_eq]
  constructor
  · rintro ⟨⟨x, y⟩, hmem, h1, h2⟩
    simp only at h1 h2
    rw [← h1, ← h2]
    exact hmem
  · intro hmem
    exact ⟨(a, b), hmem, rfl, rfl⟩

theorem is_following_false_not_mem {st : DBState} {a b : Nat}
    (h : is_following st a b = false) : (a, b) ∉ st.follows := by
  intro hmem
  rw [is_following_iff_mem.mpr hmem] at h
  exact absurd h (by decide)

theorem is_following_false_filter_eq {st : DBState} {a b : Nat}
    (h : is_following st a b = false) :
    st.follows.filter (fun e => !(e.1 == a && e.2 == b)) = st.follows := by
  apply List.filter_eq_self.mpr
  rintro ⟨x, y⟩ hmem
  rcases Bool.eq_false_or_eq_true ((x, y).1 == a && (x, y).2 == b) with hb | hb
  · exfalso
    have hxy : ((x, y) : Nat × Nat) = (a, b) := by
      simp only [Bool.and_eq_true, beq_iff_eq] at hb
      exact Prod.ext hb.1 hb.2
    rw [hxy] at hmem
    exact is_following_false_not_mem h hmem
  · rw [hb]
    decide

/-- **C2**: `follow`/`unfollow` are idempotent and mutually inverse: `follow a b`
is a no-op when the edge exists; otherwise afterwards `is_following a b` is
true and `following_count a` and `followers_count b` each grow by exactly 1,
and a subsequent `unfollow a b` restores the prior state exactly; `unfollow`
is a no-op when the edge is absent. -/
theorem follow_unfollow_inverse (st : DBState) (a b : Nat) :
    (is_following st a b = true → follow st a b = st) ∧
    (is_following st a b = false →
      is_following (follow st a b) a b = true ∧
      following_count (follow st a b) a = following_count st a + 1 ∧
      followers_count (follow st a b) b = followers_count st b + 1 ∧
      unfollow (follow st a b) a b = st) ∧
    (is_following st a b = false → unfollow st a b = st) := by
  refine ⟨fun h => by simp [follow, h], fun h => ?_, fun h => by simp [unfollow, h]⟩
  have hfol : follow st a b = { st with follows := (a, b) :: st.follows } := by
    simp [follow, h]
  have hisf : is_following (follow st a b) a b = true := by
    rw [hfol]; simp [is_following]
  refine ⟨hisf, ?_, ?_, ?_⟩
  · rw [hfol]
    simp [following_count, List.filter_cons]
  · rw [hfol]
    simp [followers_count, List.filter_cons]
  · rw [hfol]
    have hisf2 : is_following { st with follows := (a, b) :: st.follows } a b = true := by
      simp [is_following]
    have hstep : ((a, b) :: st.follows).filter (fun e => !(e.1 == a && e.2 == b)) =
        st.follows := by
      rw [List.filter_cons]
      simp only [beq_self_eq_true, Bool.and_self, Bool.not_true]
      rw [if_neg (by simp)]
      exact is_following_false_filter_eq h
    rw [unfollow, hisf2, if_pos rfl, hstep]

/-- Witness for C2 at a concrete state: one 1→2 edge absent, then present. -/
theorem follow_unfollow_inverse_witness :
    is_following ⟨[], [], []⟩ 1 2 = false ∧
    is_following (follow ⟨[], [], []⟩ 1 2) 1 2 = true ∧
    following_count (follow ⟨[], [], []⟩ 1 2) 1 = following_count ⟨[], [], []⟩ 1 + 1 ∧
    followers_count (follow ⟨[], [], []⟩ 1 2) 2 = followers_count ⟨[], [], []⟩ 2 + 1 ∧
    unfollow (follow ⟨[], [], []⟩ 1 2) 1 2 = ⟨[], [], []⟩ ∧
    unfollow ⟨[], [], []⟩ 1 2 = ⟨[], [], []⟩ := by
  have h := follow_unfollow_inverse ⟨[], [], []⟩ 1 2
  have h2 := h.2.1 (by decide)
  exact ⟨by decide, h2.1, h2.2.1, h2.2.2.1, h2.2.2.2, h.2.2 (by decide)⟩

theorem follows_nodup_applyOp {st : DBState} (h : st.follows.Nodup) (op : GraphOp) :
    (applyOp st op).follows.Nodup := by
  cases op with
  | follow a b =>
    by_cases hf : is_following st a b = true
    · simpa [applyOp, Microblog.follow, hf] using h
    · have hf' : is_following st a b = false := by simpa using hf
      have hfol : Microblog.follow st a b = { st with follows := (a, b) :: st.follows } := by
        simp [Microblog.follow, hf']
      rw [applyOp, hfol]
      exact List.nodup_cons.mpr ⟨is_following_false_not_mem hf', h⟩
  | unfollow a b =>
    by_cases hf : is_following st a b = true
    · have hunf : Microblog.unfollow st a b =
          { st with follows := st.follows.filter (fun e => !(e.1 == a && e.2 == b)) } := by
        simp [Microblog.unfollow, hf]
      rw [applyOp, hunf]
      exact h.filter _
    · have hf' : is_following st a b = false := by simpa using hf
      simpa [applyOp, Microblog.unfollow, hf'] using h

/-- **C3**: starting from the empty store, after any sequence of follow and
unfollow operations the `followers` relation holds each (follower, followed)
pair at most once, and each edge is atomically present or absent (each
operation maps a whole store to a whole store, and duplicates never arise). -/
theorem follows_relation_nodup (ops : List GraphOp) :
    (applyOps emptyDB ops).follows.Nodup := by
  suffices hgen : ∀ st : DBState, st.follows.Nodup → (applyOps st ops).follows.Nodup from
    hgen emptyDB List.nodup_nil
  induction ops with
  | nil => intro st h; exact h
  | cons op ops ih =>
    intro st h
    exact ih (applyOp st op) (follows_nodup_applyOp h op)

theorem any_congr_of_mem {α : Type} {l : List α} {p q : α → Bool}
    (h : ∀ x ∈ l, p x = q x) : l.any p = l.any q := by
  induction l with
  | nil => rfl
  | cons x xs ih =>
    rw [List.any_cons, List.any_cons, h x (by simp), ih (fun y hy => h y (by simp [hy]))]

theorem pair_match_false {a b c d : Nat} (hne : ¬(a = c ∧ b = d)) :
    (a == c && b == d) = false := by
  cases hac : (a == c) with
  | false => rw [Bool.false_and]
  | true =>
    cases hbd : (b == d) with
    | false => rw [Bool.true_and]
    | true => exact absurd ⟨by simpa using hac, by simpa using hbd⟩ hne

/-- **C9**: self-follow is not prevented: `follow u u` inserts the (u, u)
edge, after which `is_following u u` holds, and when the edge was absent both
`following_count u` and `followers_count u` grow by exactly 1. -/
theorem self_follow_not_prevented (st : DBState) (u : Nat) :
    is_following (follow st u u) u u = true ∧
    (is_following st u u = false →
      following_count (follow st u u) u = following_count st u + 1 ∧
      followers_count (follow st u u) u = followers_count st u + 1) := by
  constructor
  · by_cases hf : is_following st u u = true
    · rwa [follow, if_pos hf]
    · have hf' : is_following st u u = false := by simpa using hf
      have hfol : follow st u u = { st with follows := (u, u) :: st.follows } := by
        simp [follow, hf']
      rw [hfol]
      simp [is_following]
  · intro hf'
    have hfol : follow st u u = { st with follows := (u, u) :: st.follows } := by
      simp [follow, hf']
    constructor
    · rw [hfol]; simp [following_count, List.filter_cons]
    · rw [hfol]; simp [followers_count, List.filter_cons]

/-- Witness for C9: self-follow on a fresh store with user id 1. -/
theorem self_follow_not_prevented_witness :
    is_following (follow emptyDB 1 1) 1 1 = true ∧
    following_count (follow emptyDB 1 1) 1 = following_count emptyDB 1 + 1 ∧
    followers_count (follow emptyDB 1 1) 1 = followers_count emptyDB 1 + 1 := by
  have h := self_follow_not_prevented emptyDB 1
  exact ⟨h.1, (h.2 (by decide)).1, (h.2 (by decide)).2⟩

/-- **C1**: for every user `uid`, `following_posts` returns exactly the posts
whose author is `uid` or is followed by `uid`, each post exactly once,
ordered by descending timestamp, and the result is a permutation of the
reference feed (equality up to the arbitrary tie-break).  Hypotheses:
referential integrity (every post has an author row) and primary-key
uniqueness of the post table. -/
theorem following_posts_correct (st : DBState) (uid : Nat)
    (hfk : ∀ p ∈ st.posts, st.users.any (fun u => u.id == p.user_id) = true)
    (hnd : st.posts.Nodup) :
    (∀ p : Post, p ∈ following_posts st uid ↔
      (p ∈ st.posts ∧ (p.user_id = uid ∨ (uid, p.user_id) ∈ st.follows))) ∧
    (following_posts st uid).Nodup ∧
    List.Sorted tsDesc (following_posts st uid) ∧
    (following_posts st uid).Perm (referenceFeed st uid) := by
  have hfoleq : ∀ p : Post,
      (st.follows.any (fun e => e.1 == uid && e.2 == p.user_id) = true) ↔
        (uid, p.user_id) ∈ st.follows := by
    intro p
    simp only [List.any_eq_true, Bool.and_eq_true, beq_iff_eq]
    constructor
    · rintro ⟨⟨x, y⟩, hmem, h1, h2⟩
      simp only at h1 h2
      rw [← h1, ← h2]
      exact hmem
    · intro hmem
      exact ⟨(uid, p.user_id), hmem, rfl, rfl⟩
  have hndf : (st.posts.filter (feedCond st uid)).Nodup := hnd.filter _
  refine ⟨?_, ?_, ?_, ?_⟩
  · intro p
    rw [following_posts, (List.perm_insertionSort tsDesc _).mem_iff, List.mem_filter]
    simp only [feedCond, Bool.and_eq_true, Bool.or_eq_true, beq_iff_eq]
    constructor
    · rintro ⟨hp, -, hfol | hown⟩
      · exact ⟨hp, Or.inr ((hfoleq p).mp hfol)⟩
      · exact ⟨hp, Or.inl hown⟩
    · rintro ⟨hp, hown | hfol⟩
      · exact ⟨hp, hfk p hp, Or.inr hown⟩
      · exact ⟨hp, hfk p hp, Or.inl ((hfoleq p).mpr hfol)⟩
  · rw [following_posts]
    exact ((List.perm_insertionSort tsDesc _).nodup_iff).mpr hndf
  · exact List.sorted_insertionSort tsDesc _
  · rw [following_posts, referenceFeed]
    refine (List.perm_insertionSort tsDesc _).trans
      (List.Perm.trans ?_ (List.perm_insertionSort tsDesc _).symm)
    apply (List.perm_ext_iff_of_nodup hndf (List.nodup_dedup _)).mpr
    intro p
    rw [List.mem_dedup, List.mem_append, List.mem_filter, List.mem_filter, List.mem_filter]
    simp only [feedCond, Bool.and_eq_true, Bool.or_eq_true, beq_iff_eq]
    constructor
    · rintro ⟨hp, -, hfol | hown⟩
      · exact Or.inr ⟨hp, hfol⟩
      · exact Or.inl ⟨hp, hown⟩
    · rintro (⟨hp, hown⟩ | ⟨hp, hfol⟩)
      · exact ⟨hp, hfk p hp, Or.inr hown⟩
      · exact ⟨hp, hfk p hp, Or.inl hfol⟩

/-- Witness for C1: the four-user scenario of `tests.py`, john's feed. -/
theorem following_posts_correct_witness :
    (∀ p : Post, p ∈ following_posts testDB 1 ↔
      (p ∈ testDB.posts ∧ (p.user_id = 1 ∨ (1, p.user_id) ∈ testDB.follows))) ∧
    (following_posts testDB 1).Nodup ∧
    List.Sorted tsDesc (following_posts testDB 1) ∧
    (following_posts testDB 1).Perm (referenceFeed testDB 1) :=
  following_posts_correct testDB 1 (by decide) (by decide)

/-- **C10**: `follow a b` and `unfollow a b` change at most the single
directed edge (a, b): every other pair (c, d) keeps its `is_following` value
(in particular the reverse edge (b, a) when `(c, d) = (b, a) ≠ (a, b)`), and
the user and post tables are untouched. -/
theorem follow_unfollow_frame (st : DBState) (a b c d : Nat)
    (h : (c, d) ≠ (a, b)) :
    is_following (follow st a b) c d = is_following st c d ∧
    is_following (unfollow st a b) c d = is_following st c d ∧
    (follow st a b).users = st.users ∧ (follow st a b).posts = st.posts ∧
    (unfollow st a b).users = st.users ∧ (unfollow st a b).posts = st.posts := by
  have hne : ¬(a = c ∧ b = d) := by
    rintro ⟨h1, h2⟩
    exact h (Prod.ext h1.symm h2.symm)
  refine ⟨?_, ?_, ?_, ?_, ?_, ?_⟩
  · by_cases hf : is_following st a b = true
    · rw [follow, if_pos hf]
    · have hf' : is_following st a b = false := by simpa using hf
      have hfol : follow st a b = { st with follows := (a, b) :: st.follows } := by
        simp [follow, hf']
      rw [hfol, is_following, is_following, List.any_cons]
      have hh : ((a, b).1 == c && (a, b).2 == d) = false := pair_match_false hne
      rw [hh, Bool.false_or]
  · by_cases hf : is_following st a b = true
    · have hunf : unfollow st a b =
          { st with follows := st.follows.filter (fun e => !(e.1 == a && e.2 == b)) } := by
        simp [unfollow, hf]
      rw [hunf, is_following, is_following, List.any_filter]
      apply any_congr_of_mem
      intro e hmem
      cases hm : (e.1 == c && e.2 == d) with
      | false => rw [Bool.and_false]
      | true =>
        have hpair : e.1 = c ∧ e.2 = d := by
          simpa [beq_iff_eq] using hm
        have he : e = (c, d) := Prod.ext hpair.1 hpair.2
        have hematch : (e.1 == a && e.2 == b) = false := by
          rw [he]
          exact pair_match_false (fun hcd => h (Prod.ext hcd.1 hcd.2))
        rw [hematch]
        decide
    · rw [unfollow, if_neg (by simpa using hf)]
  · rw [follow]; split <;> rfl
  · rw [follow]; split <;> rfl
  · rw [unfollow]; split <;> rfl
  · rw [unfollow]; split <;> rfl

/-- Witness for C10: the reverse edge (2, 1) is unaffected by operations on
(1, 2) in a store holding both edges. -/
theorem follow_unfollow_frame_witness :
    is_following (follow ⟨[], [], [(2, 1)]⟩ 1 2) 2 1 = is_following ⟨[], [], [(2, 1)]⟩ 2 1 ∧
    is_following (unfollow ⟨[], [], [(2, 1)]⟩ 1 2) 2 1 = is_following ⟨[], [], [(2, 1)]⟩ 2 1 ∧
    (follow ⟨[], [], [(2, 1)]⟩ 1 2).users = [] ∧ (follow ⟨[], [], [(2, 1)]⟩ 1 2).posts = [] ∧
    (unfollow ⟨[], [], [(2, 1)]⟩ 1 2).users = [] ∧
    (unfollow ⟨[], [], [(2, 1)]⟩ 1 2).posts = [] := by
  have h := follow_unfollow_frame ⟨[], [], [(2, 1)]⟩ 1 2 2 1 (by decide)
  exact ⟨h.1, h.2.1, h.2.2.1, h.2.2.2.1, h.2.2.2.2.1, h.2.2.2.2.2⟩

/-- **C4**: password round-trip: after `set_password p`, `check_password p`
returns true and `check_password p'` returns false for every p' ≠ p. -/
theorem password_round_trip (u : User) (p p' : String) (hne : p' ≠ p) :
    check_password (set_password u p) p = true ∧
    check_password (set_password u p) p' = false := by
  constructor
  · simp [check_password, set_password, check_password_hash]
  · have hinj : generate_password_hash p ≠ generate_password_hash p' := by
      intro hcon
      apply hne
      have hd := congrArg String.data hcon
      rw [generate_password_hash, generate_password_hash, String.data_append,
        String.data_append] at hd
      exact (String.ext (List.append_cancel_left hd)).symm
    simp [check_password, set_password, check_password_hash, hinj]

/-- Witness for C4: the `tests.py` scenario, password "cat" against "dog". -/
theorem password_round_trip_witness :
    ("dog" : String) ≠ "cat" ∧
    check_password (set_password ⟨1, "susan", "susan@example.com", none, none⟩ "cat")
      "cat" = true ∧
    check_password (set_password ⟨1, "susan", "susan@example.com", none, none⟩ "cat")
      "dog" = false := by
  have h := password_round_trip ⟨1, "susan", "susan@example.com", none, none⟩
    "cat" "dog" (by decide)
  exact ⟨by decide, h.1, h.2⟩

/-- **C8**: the avatar URL is a deterministic function of only the
lower-cased email and the size: repeated calls agree, and two users whose
emails differ only in letter case receive identical URLs. -/
theorem avatar_case_insensitive (u₁ u₂ : User) (size : Nat)
    (h : pyLower u₁.email = pyLower u₂.email) :
    avatar u₁ size = avatar u₁ size ∧ avatar u₁ size = avatar u₂ size := by
  refine ⟨rfl, ?_⟩
  rw [avatar, avatar, h]

/-- Witness for C8: `John@Example.Com` and `john@example.com` agree. -/
theorem avatar_case_insensitive_witness :
    pyLower "John@Example.Com" = pyLower "john@example.com" ∧
    avatar ⟨1, "john", "John@Example.Com", none, none⟩ 128 =
      avatar ⟨2, "john2", "john@example.com", none, none⟩ 128 := by
  have h := avatar_case_insensitive ⟨1, "john", "John@Example.Com", none, none⟩
    ⟨2, "john2", "john@example.com", none, none⟩ 128 (by decide)
  exact ⟨by decide, h.2⟩

/-- **C6**: every failed login attempt — unknown username, or known username
with a wrong password — produces the identical observable outcome: the flash
"Invalid username or password" and a redirect to the login page. -/
theorem login_uniform_failure (st : DBState) (uname pwd : String) (nxt : Option String)
    (hfail : ∀ u, find_user st uname = some u → check_password u pwd = false) :
    login st uname pwd nxt = ⟨some "Invalid username or password", url_for_login⟩ := by
  cases hu : find_user st uname with
  | none => simp [login, hu]
  | some u => simp [login, hu, hfail u hu]

/-- Witness for C6: a store with susan (password "cat"); a wrong password for
susan and an unknown username fail identically. -/
theorem login_uniform_failure_witness :
    login ⟨[⟨1, "susan", "susan@example.com", some (generate_password_hash "cat"), none⟩],
        [], []⟩ "susan" "dog" none =
      ⟨some "Invalid username or password", url_for_login⟩ ∧
    login ⟨[⟨1, "susan", "susan@example.com", some (generate_password_hash "cat"), none⟩],
        [], []⟩ "john" "dog" none =
      ⟨some "Invalid username or password", url_for_login⟩ := by
  constructor
  · apply login_uniform_failure
    intro u hu
    have h0 : find_user ⟨[⟨1, "susan", "susan@example.com",
        some (generate_password_hash "cat"), none⟩], [], []⟩ "susan" =
        some ⟨1, "susan", "susan@example.com", some (generate_password_hash "cat"), none⟩ :=
      rfl
    rw [h0] at hu
    injection hu with h
    rw [← h]
    decide
  · apply login_uniform_failure
    intro u hu
    have h0 : find_user ⟨[⟨1, "susan", "susan@example.com",
        some (generate_password_hash "cat"), none⟩], [], []⟩ "john" = none := rfl
    rw [h0] at hu
    exact Option.noConfusion hu

/-- **C7**: the open-redirect guard: when `next` is absent, empty, or parses
with a nonempty netloc, the post-login redirect goes to the index page;
otherwise it goes to the destination given in `next`. -/
theorem open_redirect_guard (nxt : Option String) :
    ((nxt = none ∨ nxt = some "" ∨ (∃ s, nxt = some s ∧ netloc s ≠ "")) →
      next_page_target nxt = url_for_index) ∧
    (∀ s, nxt = some s → s ≠ "" → netloc s = "" → next_page_target nxt = s) := by
  constructor
  · rintro (rfl | rfl | ⟨s, rfl, hn⟩)
    · rfl
    · decide
    · simp [next_page_target, hn]
  · rintro s rfl hs hn
    simp [next_page_target, hs, hn]

/-- Witness for C7: an absolute URL with a host is rejected, a relative path
is followed. -/
theorem open_redirect_guard_witness :
    netloc "http://evil.example/phish" ≠ "" ∧
    next_page_target (some "http://evil.example/phish") = url_for_index ∧
    netloc "/user/john" = "" ∧
    next_page_target (some "/user/john") = "/user/john" := by
  refine ⟨by decide, ?_, by decide, ?_⟩
  · exact (open_redirect_guard (some "http://evil.example/phish")).1
      (Or.inr (Or.inr ⟨"http://evil.example/phish", rfl, by decide⟩))
  · exact (open_redirect_guard (some "/user/john")).2 "/user/john" rfl
      (by decide) (by decide)

/-- **C5**: duplicate registration is rejected before persistence: when a
stored user already has the submitted username or email, the corresponding
custom validator raises its user-visible `ValidationError`, validation fails,
no row is added, and the store is returned unchanged. -/
theorem duplicate_registration_rejected (st : DBState) (f : RegForm) (newId : Nat)
    (hdup : (∃ u ∈ st.users, u.username = f.username) ∨
      (∃ u ∈ st.users, u.email = f.email)) :
    (validate_username st f.username = some "Please use a different username." ∨
      validate_email st f.email = some "Please use a different email address.") ∧
    register st f newId = (st, false) := by
  have hcore :
      validate_username st f.username = some "Please use a different username." ∨
        validate_email st f.email = some "Please use a different email address." := by
    rcases hdup with ⟨u, hu, heq⟩ | ⟨u, hu, heq⟩
    · left
      have hany : st.users.any (fun x => x.username == f.username) = true :=
        List.any_eq_true.mpr ⟨u, hu, by simp [heq]⟩
      rw [validate_username, if_pos hany]
    · right
      have hany : st.users.any (fun x => x.email == f.email) = true :=
        List.any_eq_true.mpr ⟨u, hu, by simp [heq]⟩
      rw [validate_email, if_pos hany]
  have hfalse : registration_valid st f = false := by
    rcases hcore with hval | hval
    · rw [registration_valid, hval]; simp
    · rw [registration_valid, hval]; simp
  exact ⟨hcore, by simp [register, hfalse]⟩

/-- Witness for C5: registering the already-taken username "susan" leaves the
store unchanged and raises the username validation error. -/
theorem duplicate_registration_rejected_witness :
    (validate_username ⟨[⟨1, "susan", "susan@example.com", none, none⟩], [], []⟩ "susan" =
        some "Please use a different username." ∨
      validate_email ⟨[⟨1, "susan", "susan@example.com", none, none⟩], [], []⟩
          "new@example.com" =
        some "Please use a different email address.") ∧
    register ⟨[⟨1, "susan", "susan@example.com", none, none⟩], [], []⟩
        ⟨"susan", "new@example.com", "pw", "pw"⟩ 2 =
      (⟨[⟨1, "susan", "susan@example.com", none, none⟩], [], []⟩, false) :=
  duplicate_registration_rejected ⟨[⟨1, "susan", "susan@example.com", none, none⟩], [], []⟩
    ⟨"susan", "new@example.com", "pw", "pw"⟩ 2 (by decide)

end Microblog
